import Mathlib

/-
Verification of the tracing-adapter layer of this repository.

The development shallowly embeds:
  * the tracer collaborator (spans, start-span options, carrier
    inject/extract), which the repository consumes through a narrow
    interface;
  * the grpc.v12 unary server/client interceptors
    (contrib/google.golang.org/grpc.v12/grpc.go), translated line by line;
  * the SQL driver registration table and the traced connector, which are
    exercised by the repository's tests;
  * a Go-slice/heap model of the option-slice handling inside
    `startSpanFromContext`, precise enough to express (non-)mutation of the
    caller's backing array.

Stateful Go code becomes explicit state passing over a `TracerState`;
fallible operations return `Option`.
-/

/-! ### Association lists (string-keyed maps: metadata, span tags, registry) -/

/-- Overwrite-or-append update of an association list, keeping first-key
positions stable (models a Go map write). -/
def setAssoc {β : Type} : List (String × β) → String → β → List (String × β)
  | [], k, v => [(k, v)]
  | (k', v') :: rest, k, v =>
    if k' = k then (k, v) :: rest else (k', v') :: setAssoc rest k v

/-- Lookup in an association list (models a Go map read). -/
def getAssoc {β : Type} : List (String × β) → String → Option β
  | [], _ => none
  | (k', v') :: rest, k => if k' = k then some v' else getAssoc rest k

/-! ### Decimal rendering/parsing of identifiers

The tracer serializes trace/span identifiers into the metadata carrier as
decimal strings.  The carrier serialization is modelled by this verified
render/parse pair. -/

def digitChar (d : Nat) : Char := Char.ofNat (48 + d)

def charDigit (c : Char) : Nat := c.toNat - 48

def isDigitChar (c : Char) : Bool := 48 ≤ c.toNat && c.toNat ≤ 57

/-- Decimal digits of `n`, most significant first; `fuel` bounds the
recursion depth (any `fuel > n` is enough). -/
def renderNatAux : Nat → Nat → List Char
  | 0, _ => []
  | fuel + 1, n =>
    if n < 10 then [digitChar n]
    else renderNatAux fuel (n / 10) ++ [digitChar (n % 10)]

def renderNat (n : Nat) : String := ⟨renderNatAux (n + 1) n⟩

/-- Fold decimal digits onto an accumulator; fails on a non-digit. -/
def parseNatCore : List Char → Nat → Option Nat
  | [], acc => some acc
  | c :: rest, acc =>
    if isDigitChar c then parseNatCore rest (acc * 10 + charDigit c) else none

def parseNat (s : String) : Option Nat :=
  match s.data with
  | [] => none
  | l => parseNatCore l 0

/-! ### Tracer collaborator: spans, options, contexts, carrier -/

/-- A span context: the pair of identifiers that crosses process
boundaries through the carrier. -/
structure SpanContext where
  traceID : Nat
  spanID : Nat
deriving DecidableEq, Repr

/-- The start-span options the adapters use (`tracer.ServiceName`,
`tracer.ResourceName`, `tracer.Tag`, `tracer.SpanType`, `tracer.Measured`,
`tracer.ChildOf`). -/
inductive StartSpanOption where
  | serviceName (s : String)
  | resourceName (s : String)
  | tag (k v : String)
  | spanType (s : String)
  | measured
  | childOf (sc : SpanContext)
deriving DecidableEq, Repr

/-- Accumulated configuration of a span being started; options are applied
left to right and a later option overrides an earlier one for the same
field, tags by key. -/
structure StartSpanConfig where
  service : String := ""
  resource : String := ""
  spanType : String := ""
  tags : List (String × String) := []
  parent : Option SpanContext := none
  measured : Bool := false
deriving DecidableEq, Repr

def applyStartOpt (cfg : StartSpanConfig) : StartSpanOption → StartSpanConfig
  | .serviceName s => { cfg with service := s }
  | .resourceName s => { cfg with resource := s }
  | .tag k v => { cfg with tags := setAssoc cfg.tags k v }
  | .spanType s => { cfg with spanType := s }
  | .measured => { cfg with measured := true }
  | .childOf sc => { cfg with parent := some sc }

def applyStartOpts (opts : List StartSpanOption) : StartSpanConfig :=
  opts.foldl applyStartOpt {}

/-- RPC metadata (`metadata.MD`): a string-keyed map of string values. -/
def MD : Type := List (String × String)
deriving instance DecidableEq, Inhabited, Repr for MD

/-- A Go `context.Context`, restricted to what the adapters observe: the
active span (for parenting), attached RPC metadata, and whether the
context has been cancelled. -/
structure Ctx where
  activeSpan : Option SpanContext := none
  md : Option MD := none
  cancelled : Bool := false
deriving DecidableEq, Repr

/-- One span as recorded by the tracer. -/
structure SpanData where
  spanID : Nat
  traceID : Nat
  name : String
  service : String
  resource : String
  spanType : String
  parentID : Option Nat
  tags : List (String × String)
  measured : Bool
  finished : Bool
  err : Option String := none
deriving DecidableEq, Repr, Inhabited

/-- The tracer's state: a fresh-identifier counter and every span started
so far, most recent first.  A span is finished by flipping its `finished`
flag and recording the error given to `Finish(WithError err)`. -/
structure TracerState where
  nextID : Nat := 1
  spans : List SpanData := []
deriving DecidableEq, Repr, Inhabited

/-- Result of `tracer.StartSpanFromContext`: the new span's context, the
derived Go context carrying it, and the updated tracer state. -/
structure StartedSpan where
  sc : SpanContext
  ctx : Ctx
  st : TracerState
deriving DecidableEq, Repr

namespace tracer

/-- `tracer.StartSpanFromContext(ctx, name, opts...)`: applies the options
left to right, parents the span on an explicit `ChildOf` option or else on
the context's active span, and returns a context whose active span is the
new one. -/
def StartSpanFromContext (st : TracerState) (ctx : Ctx) (name : String)
    (opts : List StartSpanOption) : StartedSpan :=
  let cfg := applyStartOpts opts
  let parent := match cfg.parent with
    | some p => some p
    | none => ctx.activeSpan
  let sid := st.nextID
  let tid := match parent with
    | some p => p.traceID
    | none => sid
  let span : SpanData :=
    { spanID := sid, traceID := tid, name := name, service := cfg.service,
      resource := cfg.resource, spanType := cfg.spanType,
      parentID := parent.map (fun p => p.spanID), tags := cfg.tags,
      measured := cfg.measured, finished := false, err := none }
  { sc := ⟨tid, sid⟩,
    ctx := { ctx with activeSpan := some ⟨tid, sid⟩ },
    st := { nextID := sid + 1, spans := span :: st.spans } }

/-- `tracer.Inject(spanContext, carrier)`: serializes the trace context
into the metadata carrier as two decimal-valued keys. -/
def Inject (sc : SpanContext) (md : MD) : MD :=
  setAssoc (setAssoc md "x-datadog-trace-id" (renderNat sc.traceID))
    "x-datadog-parent-id" (renderNat sc.spanID)

/-- `tracer.Extract(carrier)`: deserializes a trace context from the
metadata carrier; fails (returns `none`) when either key is missing or
does not parse. -/
def Extract (md : MD) : Option SpanContext :=
  match getAssoc md "x-datadog-trace-id", getAssoc md "x-datadog-parent-id" with
  | some t, some p =>
    match parseNat t, parseNat p with
    | some tid, some sid => some ⟨tid, sid⟩
    | _, _ => none
  | _, _ => none

end tracer

/-- Apply `f` to the first span in the list with the given identifier
(the tracer holds one span object per identifier; methods on a span act on
that unique object). -/
def updateFirstSpan : List SpanData → Nat → (SpanData → SpanData) → List SpanData
  | [], _, _ => []
  | s :: rest, sid, f =>
    if s.spanID = sid then f s :: rest else s :: updateFirstSpan rest sid f

/-- `span.SetTag(key, value)`. -/
def setSpanTag (st : TracerState) (sid : Nat) (k v : String) : TracerState :=
  { st with
    spans := updateFirstSpan st.spans sid (fun s => { s with tags := setAssoc s.tags k v }) }

/-- `span.Finish(tracer.WithError(err))`: marks the span finished and
records the (possibly nil) error. -/
def finishSpan (st : TracerState) (sid : Nat) (e : Option String) : TracerState :=
  { st with
    spans := updateFirstSpan st.spans sid (fun s => { s with finished := true, err := e }) }

/-! ### Go errors and gRPC status codes -/

/-- `grpc.Code(err).String()`: the status code of a nil error is `OK`; a
status error carries its code; any other error maps to `Unknown`. -/
def grpcCodeString : Option String → String
  | none => "OK"
  | some _ => "Unknown"

/-- Index of the last `':'` in a character list, if any. -/
def lastColonIdx : List Char → Option Nat
  | [] => none
  | c :: rest =>
    match lastColonIdx rest with
    | some i => some (i + 1)
    | none => if c = ':' then some 0 else none

namespace net

/-- `net.SplitHostPort`: splits `"host:port"` at the last colon; errors
(returns `none`) when the address has no colon.  (Bracketed IPv6 literals
are out of scope for the fixtures used here.) -/
def SplitHostPort (s : String) : Option (String × String) :=
  match lastColonIdx s.data with
  | none => none
  | some i => some (⟨s.data.take i⟩, ⟨s.data.drop (i + 1)⟩)

end net

/-! ### grpc.v12 interceptors (contrib/google.golang.org/grpc.v12/grpc.go) -/

namespace ext

/-- Constants of the ddtrace `ext` package (external collaborator). -/
def AppTypeRPC : String := "rpc"

def SpanKind : String := "span.kind"

def SpanKindServer : String := "server"

def SpanKindClient : String := "client"

def Component : String := "component"

def TargetHost : String := "out.host"

def TargetPort : String := "out.port"

end ext

/-- Modelled from the spec: the tag keys of the grpc.v12 package's option
file, which is not among the sources (only `grpc.go` is); the tests assert
the `"grpc.code"` key. -/
def tagMethod : String := "grpc.method"

/-- Modelled from the spec: status-code tag key, asserted by the tests. -/
def tagCode : String := "grpc.code"

/-- The interceptor configuration struct: service name and extra span
options. -/
structure interceptorConfig where
  serviceName : String := ""
  spanOpts : List StartSpanOption := []

/-- Modelled from the spec: an interceptor option is a function mutating
the configuration; options are applied in order, later wins. -/
def InterceptorOption : Type := interceptorConfig → interceptorConfig

/-- Modelled from the spec: `defaults` (in the absent option file) leaves
the service name empty; each interceptor fills in its own fallback. -/
def defaults (cfg : interceptorConfig) : interceptorConfig := cfg

/-- `cfg := new(interceptorConfig); defaults(cfg); for _, fn := range opts
{ fn(cfg) }`. -/
def applyInterceptorOpts (opts : List InterceptorOption) : interceptorConfig :=
  opts.foldl (fun cfg f => f cfg) (defaults {})

/-- Modelled from the spec: option setting the service name. -/
def WithServiceName (name : String) : InterceptorOption :=
  fun cfg => { cfg with serviceName := name }

/-- Modelled from the spec: option appending extra start-span options. -/
def WithSpanOptions (opts : List StartSpanOption) : InterceptorOption :=
  fun cfg => { cfg with spanOpts := cfg.spanOpts ++ opts }

/-- The service-name resolution performed at the top of
`UnaryServerInterceptor`: an empty configured name falls back to
`"grpc.server"`, overridden by a non-empty `globalconfig.ServiceName()`. -/
def resolvedServerConfig (opts : List InterceptorOption) (globalService : String) :
    interceptorConfig :=
  let cfg := applyInterceptorOpts opts
  if cfg.serviceName = "" then
    let cfg1 := { cfg with serviceName := "grpc.server" }
    if globalService ≠ "" then { cfg1 with serviceName := globalService } else cfg1
  else cfg

/-- The service-name resolution performed at the top of
`UnaryClientInterceptor`: an empty configured name becomes
`"grpc.client"`; the global default is not consulted. -/
def resolvedClientConfig (opts : List InterceptorOption) : interceptorConfig :=
  let cfg := applyInterceptorOpts opts
  if cfg.serviceName = "" then { cfg with serviceName := "grpc.client" } else cfg

/-- `grpc.UnaryServerInfo`. -/
structure UnaryServerInfo where
  FullMethod : String

/-- What a traced server call returns: the handler's response and error
(propagated unchanged), the context the handler was invoked with, and the
tracer state after the span was finished. -/
structure ServerCallResult (Resp : Type) where
  resp : Resp
  err : Option String
  handlerCtx : Ctx
  st : TracerState

/-- The repository's `startSpanFromContext` helper: copies the caller's
options, appends the interceptor's own (service, resource, method tag,
span type, measured, component, server span kind), then — when extraction
from the inbound metadata succeeds — a `ChildOf` of the extracted
context, and starts a `"grpc.server"` span. -/
def startSpanFromContext (st : TracerState) (ctx : Ctx) (method service : String)
    (opts : List StartSpanOption) : StartedSpan :=
  let optsLocal := opts ++
    [.serviceName service,
     .resourceName method,
     .tag tagMethod method,
     .spanType ext.AppTypeRPC,
     .measured,
     .tag ext.Component "google.golang.org/grpc.v12",
     .tag ext.SpanKind ext.SpanKindServer]
  let md := ctx.md.getD []
  let optsLocal := match tracer.Extract md with
    | some sctx => optsLocal ++ [.childOf sctx]
    | none => optsLocal
  tracer.StartSpanFromContext st ctx "grpc.server" optsLocal

/-- `UnaryServerInterceptor(opts...)` applied to one inbound call: resolve
the configuration, start the server span, invoke the real handler on the
derived context, finish the span with the handler's error, and return the
handler's response and error.  `globalService` is the value of
`globalconfig.ServiceName()` read at construction time; the handler is an
opaque wrapped operation. -/
def UnaryServerInterceptor {Req Resp : Type} (opts : List InterceptorOption)
    (globalService : String) (ctx : Ctx) (req : Req) (info : UnaryServerInfo)
    (handler : Ctx → Req → Resp × Option String) (st : TracerState) :
    ServerCallResult Resp :=
  let cfg := resolvedServerConfig opts globalService
  let t := startSpanFromContext st ctx info.FullMethod cfg.serviceName cfg.spanOpts
  let hres := handler t.ctx req
  { resp := hres.1, err := hres.2, handlerCtx := t.ctx,
    st := finishSpan t.st t.sc.spanID hres.2 }

/-- What a traced client call returns: the invoker's error (propagated
unchanged), the context the invoker was invoked with (metadata carrying
the injected trace context), and the tracer state after the span was
finished. -/
structure ClientCallResult where
  err : Option String
  invokerCtx : Ctx
  st : TracerState

/-- `UnaryClientInterceptor(opts...)` applied to one outbound call:
resolve the configuration, start a `"grpc.client"` span from the caller's
span options plus the method tag, span type, component and client span
kind, inject the span's context into the outbound metadata, invoke the
real call, tag host/port when the peer address resolved and splits, tag
the status code, and finish the span with the call's error.  The invoker
is an opaque wrapped operation returning its error and the peer address
it resolved (`grpc.Peer(&p)`), if any. -/
def UnaryClientInterceptor (opts : List InterceptorOption) (ctx : Ctx)
    (method : String) (invoker : Ctx → String → Option String × Option String)
    (st : TracerState) : ClientCallResult :=
  let cfg := resolvedClientConfig opts
  let spanopts := cfg.spanOpts ++
    [.tag tagMethod method,
     .spanType ext.AppTypeRPC,
     .tag ext.Component "google.golang.org/grpc.v12",
     .tag ext.SpanKind ext.SpanKindClient]
  let t := tracer.StartSpanFromContext st ctx "grpc.client" spanopts
  let md := t.ctx.md.getD []
  let md2 := tracer.Inject t.sc md
  let ctx3 : Ctx := { t.ctx with md := some md2 }
  let ires := invoker ctx3 method
  let st2 := match ires.2 with
    | some addr =>
      match net.SplitHostPort addr with
      | some hp =>
        let stH := if hp.1 ≠ "" then setSpanTag t.st t.sc.spanID ext.TargetHost hp.1 else t.st
        setSpanTag stH t.sc.spanID ext.TargetPort hp.2
      | none => t.st
    | none => t.st
  let st3 := setSpanTag st2 t.sc.spanID tagCode (grpcCodeString ires.1)
  let st4 := finishSpan st3 t.sc.spanID ires.1
  { err := ires.1, invokerCtx := ctx3, st := st4 }

/-- The service-name precedence asserted by the spec, stated in the
spec's own words: explicit per-call options, then construction-time
options, then the global default, then the hardcoded fallback; a set
higher-precedence source always wins. -/
def specClaimServiceName (perCall construction global fallback : String) : String :=
  if perCall ≠ "" then perCall
  else if construction ≠ "" then construction
  else if global ≠ "" then global
  else fallback

/-! ### SQL driver registration (exercised by the repository's tests) -/

/-- The driver-name registration table: driver name to registered
payload (wrapped driver plus its static configuration). -/
def Registry (α : Type) : Type := List (String × α)

/-- Lookup of a registered driver by name. -/
def regLookup {α : Type} (r : Registry α) (n : String) : Option α := getAssoc r n

/-- Whether a name is already registered. -/
def isRegistered {α : Type} (r : Registry α) (n : String) : Bool :=
  (regLookup r n).isSome

/-- Modelled from the spec: `Register(name, driver, opts...)` (the sql
package implementation is not among the sources, only its tests are).
Registration is a no-op when the name is already present — it neither
panics nor errors nor replaces — and each call executes atomically under
the registry's mutual exclusion. -/
def Register {α : Type} (r : Registry α) (n : String) (p : α) : Registry α :=
  if isRegistered r n then r else (n, p) :: r

/-- A sequence of `Register` calls applied in the order in which the
registry's mutual exclusion serialized them. -/
def applyCalls {α : Type} (r : Registry α) (calls : List (String × α)) : Registry α :=
  calls.foldl (fun acc c => Register acc c.1 c.2) r

/-- What a traced connect returns: the connection and error of the
underlying connector (propagated unchanged) and the tracer state after
the span was finished. -/
structure ConnectResult (Conn : Type) where
  conn : Option Conn
  err : Option String
  st : TracerState

/-- Modelled from the spec: `tracedConnector.Connect` (implementation not
among the sources; behavior from the spec's driver-wrapping contract and
the cancellation test): start a `<driverName>.query` span tagged with the
operation type `Connect`, run the underlying connector, and finish the
span with the connector's error.  The underlying connector is an opaque
operation on the caller's context; a connector that respects cancellation
returns once the context is cancelled, and the wrapper finishes the span
with that error. -/
def tracedConnectorConnect {Conn : Type}
    (driverName : String) (connector : Ctx → Option Conn × Option String)
    (ctx : Ctx) (st : TracerState) : ConnectResult Conn :=
  let t := tracer.StartSpanFromContext st ctx (driverName ++ ".query")
    [.tag "sql.query_type" "Connect"]
  let cres := connector ctx
  { conn := cres.1, err := cres.2, st := finishSpan t.st t.sc.spanID cres.2 }

/-! ### Go slice/heap model of the option handling in `startSpanFromContext`

Slices are triples (backing-array reference, offset, length) with a
capacity; `append` within capacity writes into the existing backing
array, `append` beyond capacity allocates a fresh one.  This is the level
at which "the caller's options slice is not mutated" is a statement. -/

/-- Placeholder element for freshly allocated (zeroed) array cells. -/
def zeroOpt : StartSpanOption := .measured

/-- A heap of backing arrays: an allocation counter and the contents of
every reference. -/
structure GoHeap where
  next : Nat
  mem : Nat → List StartSpanOption

/-- A Go slice header over the heap. -/
structure GoSlice where
  ref : Nat
  off : Nat
  len : Nat
  cap : Nat
deriving DecidableEq, Repr

/-- Allocate a fresh backing array. -/
def goAlloc (h : GoHeap) (a : List StartSpanOption) : GoHeap × Nat :=
  ({ next := h.next + 1, mem := fun r => if r = h.next then a else h.mem r }, h.next)

/-- `make([]T, n, c)`. -/
def goMake (h : GoHeap) (n c : Nat) : GoHeap × GoSlice :=
  let p := goAlloc h (List.replicate c zeroOpt)
  (p.1, { ref := p.2, off := 0, len := n, cap := c })

/-- The elements a slice views. -/
def goRead (h : GoHeap) (s : GoSlice) : List StartSpanOption :=
  ((h.mem s.ref).drop s.off).take s.len

/-- Overwrite cells of a backing array starting at index `i`. -/
def writeList (a : List StartSpanOption) (i : Nat) (xs : List StartSpanOption) :
    List StartSpanOption :=
  a.take i ++ xs ++ a.drop (i + xs.length)

/-- `copy(dst, src)`: writes `min(len(dst), len(src))` elements into
`dst`'s backing array. -/
def goCopy (h : GoHeap) (dst src : GoSlice) : GoHeap :=
  let xs := (goRead h src).take dst.len
  { h with
    mem := fun r => if r = dst.ref then writeList (h.mem dst.ref) dst.off xs else h.mem r }

/-- `append(s, x)`: within capacity, writes into the existing backing
array past the slice's length; beyond capacity, copies into a freshly
allocated larger array. -/
def goAppendOne (h : GoHeap) (s : GoSlice) (x : StartSpanOption) : GoHeap × GoSlice :=
  if s.len < s.cap then
    ({ h with
       mem := fun r =>
         if r = s.ref then writeList (h.mem s.ref) (s.off + s.len) [x] else h.mem r },
     { s with len := s.len + 1 })
  else
    let newcap := if s.cap = 0 then 1 else 2 * s.cap
    let p := goAlloc h (goRead h s ++ [x] ++ List.replicate (newcap - (s.len + 1)) zeroOpt)
    (p.1, { ref := p.2, off := 0, len := s.len + 1, cap := newcap })

/-- `append(s, xs...)`. -/
def goAppendList (h : GoHeap) (s : GoSlice) (xs : List StartSpanOption) :
    GoHeap × GoSlice :=
  xs.foldl (fun p x => goAppendOne p.1 p.2 x) (h, s)

/-- The slice manipulation of `startSpanFromContext` at the heap level:
`optsLocal := make([]StartSpanOption, len(opts), len(opts)+6)`;
`copy(optsLocal, opts)`; append the seven fixed options; append a
`ChildOf` when extraction succeeds. -/
def startSpanFromContextSliceCode (h : GoHeap) (opts : GoSlice)
    (method service : String) (md : MD) : GoHeap × GoSlice :=
  let p1 := goMake h opts.len (opts.len + 6)
  let h2 := goCopy p1.1 p1.2 opts
  let p3 := goAppendList h2 p1.2
    [.serviceName service,
     .resourceName method,
     .tag tagMethod method,
     .spanType ext.AppTypeRPC,
     .measured,
     .tag ext.Component "google.golang.org/grpc.v12",
     .tag ext.SpanKind ext.SpanKindServer]
  match tracer.Extract md with
  | some sctx => goAppendOne p3.1 p3.2 (.childOf sctx)
  | none => p3

/-! ### Helper lemmas -/

theorem getAssoc_setAssoc_self {β : Type} (l : List (String × β)) (k : String) (v : β) :
    getAssoc (setAssoc l k v) k = some v := by
  induction l with
  | nil => simp [setAssoc, getAssoc]
  | cons hd tl ih =>
    obtain ⟨k1, v1⟩ := hd
    by_cases h : k1 = k
    · simp [setAssoc, getAssoc, h]
    · simp [setAssoc, getAssoc, h, ih]

theorem getAssoc_setAssoc_ne {β : Type} (l : List (String × β)) (k k' : String) (v : β)
    (h : k' ≠ k) : getAssoc (setAssoc l k v) k' = getAssoc l k' := by
  induction l with
  | nil => simp [setAssoc, getAssoc, Ne.symm h]
  | cons hd tl ih =>
    obtain ⟨k1, v1⟩ := hd
    by_cases hk : k1 = k
    · subst hk
      simp [setAssoc, getAssoc, Ne.symm h]
    · by_cases hk' : k1 = k'
      · simp [setAssoc, getAssoc, hk, hk', h]
      · simp [setAssoc, getAssoc, hk, hk', ih]

theorem digit_spec : ∀ d, d < 10 →
    charDigit (digitChar d) = d ∧ isDigitChar (digitChar d) = true := by decide

theorem parseNatCore_append (a b : List Char) (acc : Nat) :
    parseNatCore (a ++ b) acc =
      match parseNatCore a acc with
      | some m => parseNatCore b m
      | none => none := by
  induction a generalizing acc with
  | nil => simp [parseNatCore]
  | cons c rest ih =>
    by_cases h : isDigitChar c
    · simp [parseNatCore, h, ih]
    · simp [parseNatCore, h]

theorem parse_renderAux : ∀ fuel n acc, n < fuel →
    parseNatCore (renderNatAux fuel n) acc =
      some (acc * 10 ^ (renderNatAux fuel n).length + n) := by
  intro fuel
  induction fuel with
  | zero => omega
  | succ fuel ih =>
    intro n acc hn
    by_cases h : n < 10
    · have hd := digit_spec n h
      simp [renderNatAux, h, parseNatCore, hd.1, hd.2]
    · have hrec : n / 10 < fuel := by
        have h1 : n / 10 < n := Nat.div_lt_self (by omega) (by omega)
        omega
      have hd := digit_spec (n % 10) (Nat.mod_lt _ (by omega))
      rw [renderNatAux]
      simp only [if_neg h]
      rw [parseNatCore_append, ih (n / 10) acc hrec]
      simp only [parseNatCore, hd.1, hd.2, if_pos]
      have heq : (acc * 10 ^ (renderNatAux fuel (n / 10)).length + n / 10) * 10 + n % 10 =
          acc * 10 ^ ((renderNatAux fuel (n / 10)).length + 1) + n := by
        rw [pow_succ]
        have := Nat.div_add_mod n 10
        ring_nf
        omega
      simp [heq]

theorem renderNatAux_ne_nil : ∀ fuel n, n < fuel → renderNatAux fuel n ≠ [] := by
  intro fuel n h
  cases fuel with
  | zero => omega
  | succ fuel =>
    by_cases h10 : n < 10 <;> simp [renderNatAux, h10]

theorem parseNat_renderNat (n : Nat) : parseNat (renderNat n) = some n := by
  have hne := renderNatAux_ne_nil (n + 1) n (by omega)
  have hp := parse_renderAux (n + 1) n 0 (by omega)
  unfold parseNat renderNat
  cases hr : renderNatAux (n + 1) n with
  | nil => exact absurd hr hne
  | cons c rest =>
    rw [hr] at hp
    simpa using hp

/-- The carrier round-trips: extraction recovers exactly the injected
trace context. -/
theorem extract_inject (sc : SpanContext) (md : MD) :
    tracer.Extract (tracer.Inject sc md) = some sc := by
  unfold tracer.Extract tracer.Inject
  rw [getAssoc_setAssoc_self]
  rw [getAssoc_setAssoc_ne _ _ _ _ (by decide)]
  rw [getAssoc_setAssoc_self]
  simp [parseNat_renderNat]

theorem updateFirstSpan_cons_self (s : SpanData) (rest : List SpanData) (sid : Nat)
    (f : SpanData → SpanData) (h : s.spanID = sid) :
    updateFirstSpan (s :: rest) sid f = f s :: rest := by
  simp [updateFirstSpan, h]

theorem serverTags_method (base : List (String × String)) (m : String) :
    getAssoc (setAssoc (setAssoc (setAssoc base tagMethod m)
      ext.Component "google.golang.org/grpc.v12") ext.SpanKind ext.SpanKindServer)
      tagMethod = some m := by
  rw [getAssoc_setAssoc_ne _ _ _ _ (by decide), getAssoc_setAssoc_ne _ _ _ _ (by decide),
    getAssoc_setAssoc_self]

theorem serverTags_component (base : List (String × String)) (m : String) :
    getAssoc (setAssoc (setAssoc (setAssoc base tagMethod m)
      ext.Component "google.golang.org/grpc.v12") ext.SpanKind ext.SpanKindServer)
      ext.Component = some "google.golang.org/grpc.v12" := by
  rw [getAssoc_setAssoc_ne _ _ _ _ (by decide), getAssoc_setAssoc_self]

theorem serverTags_kind (base : List (String × String)) (m : String) :
    getAssoc (setAssoc (setAssoc (setAssoc base tagMethod m)
      ext.Component "google.golang.org/grpc.v12") ext.SpanKind ext.SpanKindServer)
      ext.SpanKind = some ext.SpanKindServer := by
  rw [getAssoc_setAssoc_self]

theorem clientTags_lookup (base : List (String × String)) (m host port code : String) :
    (getAssoc (setAssoc (setAssoc (setAssoc (setAssoc (setAssoc (setAssoc base
        tagMethod m) ext.Component "google.golang.org/grpc.v12")
        ext.SpanKind ext.SpanKindClient) ext.TargetHost host) ext.TargetPort port)
        tagCode code) tagMethod = some m) ∧
    (getAssoc (setAssoc (setAssoc (setAssoc (setAssoc (setAssoc (setAssoc base
        tagMethod m) ext.Component "google.golang.org/grpc.v12")
        ext.SpanKind ext.SpanKindClient) ext.TargetHost host) ext.TargetPort port)
        tagCode code) ext.Component = some "google.golang.org/grpc.v12") ∧
    (getAssoc (setAssoc (setAssoc (setAssoc (setAssoc (setAssoc (setAssoc base
        tagMethod m) ext.Component "google.golang.org/grpc.v12")
        ext.SpanKind ext.SpanKindClient) ext.TargetHost host) ext.TargetPort port)
        tagCode code) ext.SpanKind = some ext.SpanKindClient) ∧
    (getAssoc (setAssoc (setAssoc (setAssoc (setAssoc (setAssoc (setAssoc base
        tagMethod m) ext.Component "google.golang.org/grpc.v12")
        ext.SpanKind ext.SpanKindClient) ext.TargetHost host) ext.TargetPort port)
        tagCode code) ext.TargetHost = some host) ∧
    (getAssoc (setAssoc (setAssoc (setAssoc (setAssoc (setAssoc (setAssoc base
        tagMethod m) ext.Component "google.golang.org/grpc.v12")
        ext.SpanKind ext.SpanKindClient) ext.TargetHost host) ext.TargetPort port)
        tagCode code) ext.TargetPort = some port) ∧
    (getAssoc (setAssoc (setAssoc (setAssoc (setAssoc (setAssoc (setAssoc base
        tagMethod m) ext.Component "google.golang.org/grpc.v12")
        ext.SpanKind ext.SpanKindClient) ext.TargetHost host) ext.TargetPort port)
        tagCode code) tagCode = some code) := by
  refine ⟨?_, ?_, ?_, ?_, ?_, ?_⟩
  · rw [getAssoc_setAssoc_ne _ _ _ _ (by decide), getAssoc_setAssoc_ne _ _ _ _ (by decide),
      getAssoc_setAssoc_ne _ _ _ _ (by decide), getAssoc_setAssoc_ne _ _ _ _ (by decide),
      getAssoc_setAssoc_ne _ _ _ _ (by decide), getAssoc_setAssoc_self]
  · rw [getAssoc_setAssoc_ne _ _ _ _ (by decide), getAssoc_setAssoc_ne _ _ _ _ (by decide),
      getAssoc_setAssoc_ne _ _ _ _ (by decide), getAssoc_setAssoc_ne _ _ _ _ (by decide),
      getAssoc_setAssoc_self]
  · rw [getAssoc_setAssoc_ne _ _ _ _ (by decide), getAssoc_setAssoc_ne _ _ _ _ (by decide),
      getAssoc_setAssoc_ne _ _ _ _ (by decide), getAssoc_setAssoc_self]
  · rw [getAssoc_setAssoc_ne _ _ _ _ (by decide), getAssoc_setAssoc_ne _ _ _ _ (by decide),
      getAssoc_setAssoc_self]
  · rw [getAssoc_setAssoc_ne _ _ _ _ (by decide), getAssoc_setAssoc_self]
  · rw [getAssoc_setAssoc_self]

theorem resolvedClient_spanOpts (opts : List InterceptorOption) :
    (resolvedClientConfig opts).spanOpts = (applyInterceptorOpts opts).spanOpts := by
  unfold resolvedClientConfig
  by_cases h : (applyInterceptorOpts opts).serviceName = "" <;> simp [h]

/-! ### Claim theorems -/

/-- C1: For every traced call made through an adapter — a server-interceptor
call, a client-interceptor call, or a connect — on every exit path exactly
one span is created and that span is finished exactly once, with the error
recorded on the span if and only if the call failed: the final tracer state
is the initial one with exactly one new span pushed, that span is finished,
and its recorded error equals (hence fails together with) the call's
error. -/
theorem adapter_span_lifecycle {Req Resp Conn : Type} :
    (∀ (opts : List InterceptorOption) (globalService : String) (ctx : Ctx) (req : Req)
      (info : UnaryServerInfo) (handler : Ctx → Req → Resp × Option String)
      (st : TracerState),
      ∃ s, (UnaryServerInterceptor opts globalService ctx req info handler st).st.spans =
          s :: st.spans ∧
        s.finished = true ∧
        s.err = (UnaryServerInterceptor opts globalService ctx req info handler st).err ∧
        (s.err.isSome = true ↔
          (UnaryServerInterceptor opts globalService ctx req info handler st).err.isSome =
            true)) ∧
    (∀ (opts : List InterceptorOption) (ctx : Ctx) (method : String)
      (invoker : Ctx → String → Option String × Option String) (st : TracerState),
      ∃ s, (UnaryClientInterceptor opts ctx method invoker st).st.spans = s :: st.spans ∧
        s.finished = true ∧
        s.err = (UnaryClientInterceptor opts ctx method invoker st).err ∧
        (s.err.isSome = true ↔
          (UnaryClientInterceptor opts ctx method invoker st).err.isSome = true)) ∧
    (∀ (driverName : String) (connector : Ctx → Option Conn × Option String) (ctx : Ctx)
      (st : TracerState),
      ∃ s, (tracedConnectorConnect driverName connector ctx st).st.spans = s :: st.spans ∧
        s.finished = true ∧
        s.err = (tracedConnectorConnect driverName connector ctx st).err ∧
        (s.err.isSome = true ↔
          (tracedConnectorConnect driverName connector ctx st).err.isSome = true)) := by
  refine ⟨?_, ?_, ?_⟩
  · intro opts globalService ctx req info handler st
    simp only [UnaryServerInterceptor, startSpanFromContext, tracer.StartSpanFromContext,
      finishSpan, updateFirstSpan]
    simp
  · intro opts ctx method invoker st
    simp only [UnaryClientInterceptor, tracer.StartSpanFromContext, finishSpan, setSpanTag]
    rcases hpeer : (invoker _ method).2 with _ | addr
    · simp [hpeer, updateFirstSpan_cons_self]
    · rcases hsp : net.SplitHostPort addr with _ | hp
      · simp [hpeer, hsp, updateFirstSpan_cons_self]
      · by_cases hh : hp.1 ≠ "" <;> simp [hpeer, hsp, hh, updateFirstSpan_cons_self]
  · intro driverName connector ctx st
    simp [tracedConnectorConnect, tracer.StartSpanFromContext, finishSpan,
      updateFirstSpan_cons_self]

/-- C2: The call wrapped by `UnaryServerInterceptor` starts exactly one
`"grpc.server"` span whose resource is the full method name and whose tags
carry the method name, span kind `"server"` and the component identifier;
the span's parent is the trace context extracted from the inbound
metadata when extraction succeeds, and otherwise (missing or invalid
context tolerated) the caller-supplied parent option or the context's
active span — a new root when neither exists; the real handler is invoked
and the span is finished with the handler's error, the handler's response
and error being returned unchanged. -/
theorem unary_server_interceptor_spec {Req Resp : Type} (opts : List InterceptorOption)
    (globalService : String) (ctx : Ctx) (req : Req) (info : UnaryServerInfo)
    (handler : Ctx → Req → Resp × Option String) (st : TracerState) :
    ∃ s, (UnaryServerInterceptor opts globalService ctx req info handler st).st.spans =
        s :: st.spans ∧
      s.name = "grpc.server" ∧
      s.resource = info.FullMethod ∧
      getAssoc s.tags tagMethod = some info.FullMethod ∧
      getAssoc s.tags ext.SpanKind = some ext.SpanKindServer ∧
      getAssoc s.tags ext.Component = some "google.golang.org/grpc.v12" ∧
      s.parentID =
        (match tracer.Extract (ctx.md.getD []) with
         | some sc0 => some sc0.spanID
         | none =>
           match (applyStartOpts (resolvedServerConfig opts globalService).spanOpts).parent with
           | some p => some p.spanID
           | none => ctx.activeSpan.map (fun p => p.spanID)) ∧
      s.finished = true ∧
      ((UnaryServerInterceptor opts globalService ctx req info handler st).resp,
       (UnaryServerInterceptor opts globalService ctx req info handler st).err) =
        handler (UnaryServerInterceptor opts globalService ctx req info handler st).handlerCtx
          req ∧
      s.err =
        (handler (UnaryServerInterceptor opts globalService ctx req info handler st).handlerCtx
          req).2 := by
  simp only [UnaryServerInterceptor, startSpanFromContext, tracer.StartSpanFromContext,
    finishSpan]
  rcases hE : tracer.Extract (ctx.md.getD []) with _ | sc0
  · simp only [hE]
    simp [updateFirstSpan_cons_self, applyStartOpts, applyStartOpt,
      serverTags_method, serverTags_component, serverTags_kind]
    rcases (List.foldl applyStartOpt
        { service := "", resource := "", spanType := "", tags := [], parent := none,
          measured := false } (resolvedServerConfig opts globalService).spanOpts).parent with
      _ | p <;> simp
  · simp only [hE]
    simp [updateFirstSpan_cons_self, applyStartOpts, applyStartOpt,
      serverTags_method, serverTags_component, serverTags_kind]

/-- C3: The call wrapped by `UnaryClientInterceptor` starts exactly one
`"grpc.client"` span tagged with the method, span kind `"client"` and the
component identifier; the current trace context is injected into the
outbound metadata handed to the real invoker (extraction from that
metadata yields exactly the span's own context); when the invoker resolves
the peer to an address that splits into a non-empty host and a port, the
span is tagged with that host and port; the span is tagged with the RPC
status code of the call's error and finished with that error, which is
returned unchanged. -/
theorem unary_client_interceptor_spec (opts : List InterceptorOption) (ctx : Ctx)
    (method : String) (invoker : Ctx → String → Option String × Option String)
    (st : TracerState) (e0 : Option String) (addr host port : String)
    (hinv : ∀ c, invoker c method = (e0, some addr))
    (hsplit : net.SplitHostPort addr = some (host, port))
    (hhost : host ≠ "") :
    ∃ s, (UnaryClientInterceptor opts ctx method invoker st).st.spans = s :: st.spans ∧
      s.name = "grpc.client" ∧
      getAssoc s.tags tagMethod = some method ∧
      getAssoc s.tags ext.SpanKind = some ext.SpanKindClient ∧
      getAssoc s.tags ext.Component = some "google.golang.org/grpc.v12" ∧
      tracer.Extract ((UnaryClientInterceptor opts ctx method invoker st).invokerCtx.md.getD [])
        = some ⟨s.traceID, s.spanID⟩ ∧
      (UnaryClientInterceptor opts ctx method invoker st).err = e0 ∧
      getAssoc s.tags ext.TargetHost = some host ∧
      getAssoc s.tags ext.TargetPort = some port ∧
      getAssoc s.tags tagCode = some (grpcCodeString e0) ∧
      s.finished = true ∧
      s.err = e0 := by
  simp only [UnaryClientInterceptor, tracer.StartSpanFromContext, finishSpan, setSpanTag]
  simp only [hinv, hsplit]
  simp [hhost, updateFirstSpan_cons_self, applyStartOpts, applyStartOpt,
    (clientTags_lookup _ _ _ _ _).1, (clientTags_lookup _ _ _ _ _).2.1,
    (clientTags_lookup _ _ _ _ _).2.2.1, (clientTags_lookup _ _ _ _ _).2.2.2.1,
    (clientTags_lookup _ _ _ _ _).2.2.2.2.1, (clientTags_lookup _ _ _ _ _).2.2.2.2.2,
    extract_inject]

/-- Witness for C3: a concrete client call whose invoker fails with
`"boom"` and resolves the peer `127.0.0.1:5432`. -/
theorem unary_client_interceptor_spec_witness :
    ∃ s, (UnaryClientInterceptor [] {} "/svc.M"
        (fun _ _ => (some "boom", some "127.0.0.1:5432")) {}).st.spans = s :: [] ∧
      s.name = "grpc.client" ∧
      getAssoc s.tags tagMethod = some "/svc.M" ∧
      getAssoc s.tags ext.SpanKind = some ext.SpanKindClient ∧
      getAssoc s.tags ext.Component = some "google.golang.org/grpc.v12" ∧
      tracer.Extract ((UnaryClientInterceptor [] {} "/svc.M"
          (fun _ _ => (some "boom", some "127.0.0.1:5432")) {}).invokerCtx.md.getD [])
        = some ⟨s.traceID, s.spanID⟩ ∧
      (UnaryClientInterceptor [] {} "/svc.M"
        (fun _ _ => (some "boom", some "127.0.0.1:5432")) {}).err = some "boom" ∧
      getAssoc s.tags ext.TargetHost = some "127.0.0.1" ∧
      getAssoc s.tags ext.TargetPort = some "5432" ∧
      getAssoc s.tags tagCode = some (grpcCodeString (some "boom")) ∧
      s.finished = true ∧
      s.err = some "boom" :=
  unary_client_interceptor_spec [] {} "/svc.M"
    (fun _ _ => (some "boom", some "127.0.0.1:5432")) {} (some "boom") "127.0.0.1:5432"
    "127.0.0.1" "5432" (fun _ => rfl) rfl (by decide)

/-- Counterexample for C4 as stated: with no construction-time options and
a global default service name `"mysvc"`, the claimed resolution order
demands the client span's service name be `"mysvc"`, but the client
interceptor never consults the global default (its config falls back to
`"grpc.client"`) and never applies even that config name to the emitted
span, whose service name stays empty. -/
theorem service_name_precedence_counterexample :
    ((UnaryClientInterceptor [] {} "/svc.M" (fun _ _ => (none, none)) {}).st.spans.headD
        default).service = "" ∧
    (resolvedClientConfig []).serviceName = "grpc.client" ∧
    specClaimServiceName "" "" "mysvc" "grpc.client" = "mysvc" ∧
    ("" : String) ≠ "mysvc" :=
  ⟨rfl, rfl, rfl, by decide⟩

/-- C4 (amended): For `UnaryServerInterceptor` the emitted span's service
name follows the order construction-time options, then the global default
service name, then the fallback `"grpc.server"` (there is no per-call
service option).  For `UnaryClientInterceptor` the global default is not
consulted — the config's service name is the construction-time options'
value or else `"grpc.client"` — and that config name is not applied to the
emitted span, whose service comes only from caller-supplied span
options. -/
theorem service_name_resolution_amended :
    (∀ (opts : List InterceptorOption) (globalService : String) (ctx : Ctx) (req : String)
      (info : UnaryServerInfo) (handler : Ctx → String → String × Option String)
      (st : TracerState),
      ((UnaryServerInterceptor opts globalService ctx req info handler st).st.spans.headD
          default).service =
        specClaimServiceName "" (applyInterceptorOpts opts).serviceName globalService
          "grpc.server") ∧
    (∀ opts : List InterceptorOption,
      (resolvedClientConfig opts).serviceName =
        specClaimServiceName "" (applyInterceptorOpts opts).serviceName "" "grpc.client") ∧
    (∀ (opts : List InterceptorOption) (ctx : Ctx) (method : String)
      (invoker : Ctx → String → Option String × Option String) (st : TracerState),
      ((UnaryClientInterceptor opts ctx method invoker st).st.spans.headD default).service =
        (applyStartOpts (applyInterceptorOpts opts).spanOpts).service) := by
  refine ⟨?_, ?_, ?_⟩
  · intro opts globalService ctx req info handler st
    simp only [UnaryServerInterceptor, startSpanFromContext, tracer.StartSpanFromContext,
      finishSpan]
    rcases hE : tracer.Extract (ctx.md.getD []) with _ | sc0 <;>
      simp [hE, updateFirstSpan_cons_self, applyStartOpts, applyStartOpt] <;>
      · unfold resolvedServerConfig specClaimServiceName
        by_cases h1 : (applyInterceptorOpts opts).serviceName = "" <;>
          by_cases h2 : globalService = "" <;> simp [h1, h2]
  · intro opts
    unfold resolvedClientConfig specClaimServiceName
    by_cases h1 : (applyInterceptorOpts opts).serviceName = "" <;> simp [h1]
  · intro opts ctx method invoker st
    simp only [UnaryClientInterceptor, tracer.StartSpanFromContext, finishSpan, setSpanTag]
    rcases hpeer : (invoker _ method).2 with _ | addr
    · simp [hpeer, updateFirstSpan_cons_self, applyStartOpts, applyStartOpt,
        resolvedClient_spanOpts]
    · rcases hsp : net.SplitHostPort addr with _ | hp
      · simp [hpeer, hsp, updateFirstSpan_cons_self, applyStartOpts, applyStartOpt,
          resolvedClient_spanOpts]
      · by_cases hh : hp.1 ≠ "" <;>
          simp [hpeer, hsp, hh, updateFirstSpan_cons_self, applyStartOpts, applyStartOpt,
            resolvedClient_spanOpts]

/-- C5: `Register` is idempotent per driver name — a second call with the
same name is a complete no-op: it neither panics (the model is total),
nor errors, nor replaces the driver and options stored by the first
call; the registry is left exactly as the first call left it. -/
theorem register_idempotent_per_name {α : Type} (r : Registry α) (n : String) (p1 p2 : α) :
    Register (Register r n p1) n p2 = Register r n p1 := by
  by_cases h : isRegistered r n
  · simp [Register, h]
  · have h' : (getAssoc r n).isSome = false := by
      simpa [isRegistered, regLookup] using h
    simp [Register, isRegistered, regLookup, h', getAssoc]

theorem not_registered_not_mem {α : Type} (r : Registry α) (n : String)
    (h : isRegistered r n = false) : n ∉ r.map Prod.fst := by
  induction r with
  | nil => simp
  | cons hd tl ih =>
    obtain ⟨k1, v1⟩ := hd
    by_cases hk : k1 = n
    · simp [isRegistered, regLookup, getAssoc, hk] at h
    · simp only [isRegistered, regLookup, getAssoc, if_neg hk] at h
      have hih := ih (by simpa [isRegistered, regLookup] using h)
      simp [Ne.symm hk, hih]

theorem regLookup_register_of_registered {α : Type} (r : Registry α) (n m : String) (p : α)
    (h : isRegistered r n = true) : regLookup (Register r m p) n = regLookup r n := by
  by_cases hm : isRegistered r m
  · simp [Register, hm]
  · have hmn : m ≠ n := by
      intro he
      rw [he] at hm
      exact hm h
    simp [Register, hm, regLookup, getAssoc, hmn]

theorem isRegistered_register_self {α : Type} (r : Registry α) (n : String) (p : α) :
    isRegistered (Register r n p) n = true := by
  by_cases h : isRegistered r n
  · simp [Register, h]
  · have h' : (getAssoc r n).isSome = false := by
      simpa [isRegistered, regLookup] using h
    simp [Register, isRegistered, regLookup, h', getAssoc]

theorem isRegistered_register_mono {α : Type} (r : Registry α) (n m : String) (p : α)
    (h : isRegistered r n = true) : isRegistered (Register r m p) n = true := by
  unfold isRegistered at h ⊢
  rw [show regLookup (Register r m p) n = regLookup r n from
    regLookup_register_of_registered r n m p h]
  exact h

theorem register_keys_nodup {α : Type} (r : Registry α) (n : String) (p : α)
    (h : (r.map Prod.fst).Nodup) : ((Register r n p).map Prod.fst).Nodup := by
  by_cases hr : isRegistered r n
  · simpa [Register, hr]
  · have := not_registered_not_mem r n (by simpa using hr)
    simp [Register, hr, h, this]

/-- C6: Any concurrent batch of `Register` calls is serialized by the
registry's mutual exclusion into some sequential interleaving; for every
such interleaving (an arbitrary list of name/payload calls), no call
panics or errors (each is a total registry update), every named driver
ends up registered while the name table keeps exactly one entry per name,
and already-present registrations are never replaced — the first
registration of a name is the one that survives. -/
theorem register_linearized_safe {α : Type} (calls : List (String × α)) :
    ∀ r : Registry α, (r.map Prod.fst).Nodup →
    (((applyCalls r calls).map Prod.fst).Nodup ∧
     (∀ c ∈ calls, isRegistered (applyCalls r calls) c.1 = true) ∧
     (∀ n, isRegistered r n = true → regLookup (applyCalls r calls) n = regLookup r n)) := by
  induction calls with
  | nil =>
    intro r hr
    exact ⟨hr, by simp, fun n _ => rfl⟩
  | cons c cs ih =>
    intro r hr
    have hstep : applyCalls r (c :: cs) = applyCalls (Register r c.1 c.2) cs := rfl
    have hr' : ((Register r c.1 c.2).map Prod.fst).Nodup := register_keys_nodup r c.1 c.2 hr
    obtain ⟨ihn, ihs, ihp⟩ := ih (Register r c.1 c.2) hr'
    refine ⟨by rwa [hstep], ?_, ?_⟩
    · intro d hd
      rcases List.mem_cons.mp hd with he | hm
      · rw [hstep]
        have hreg : isRegistered (Register r c.1 c.2) d.1 = true := by
          rw [he]
          exact isRegistered_register_self r c.1 c.2
        have := ihp d.1 hreg
        unfold isRegistered
        rw [this]
        exact hreg
      · rw [hstep]
        exact ihs d hm
    · intro n hn
      rw [hstep, ihp n (isRegistered_register_mono r n c.1 c.2 hn),
        regLookup_register_of_registered r n c.1 c.2 hn]

/-- Witness for C6: a concrete interleaving with a duplicated name. -/
theorem register_linearized_safe_witness :
    (((applyCalls ([] : Registry Nat) [("mysql", 1), ("mysql", 2), ("postgres", 3)]).map
        Prod.fst).Nodup ∧
     (∀ c ∈ [("mysql", 1), ("mysql", 2), ("postgres", 3)],
       isRegistered (applyCalls ([] : Registry Nat)
         [("mysql", 1), ("mysql", 2), ("postgres", 3)]) c.1 = true) ∧
     (∀ n, isRegistered ([] : Registry Nat) n = true →
       regLookup (applyCalls ([] : Registry Nat)
         [("mysql", 1), ("mysql", 2), ("postgres", 3)]) n =
         regLookup ([] : Registry Nat) n)) :=
  register_linearized_safe [("mysql", 1), ("mysql", 2), ("postgres", 3)] [] (by simp)

/-- C7: If the caller's context is cancelled while a connect attempt is
outstanding, and the underlying connector respects cancellation (it
returns no connection and some error once its context is cancelled), the
wrapper still produces exactly one span for the attempted operation,
named after the driver and tagged with the operation type `"Connect"`,
finishes it with the cancellation error, and the call returns (the model
is a total function) with that error and no connection. -/
theorem connect_cancelled_ctx_span {Conn : Type} (driverName : String)
    (connector : Ctx → Option Conn × Option String) (ctx : Ctx) (st : TracerState)
    (hcancel : ctx.cancelled = true)
    (hconn : ∀ c : Ctx, c.cancelled = true →
      (connector c).1 = (none : Option Conn) ∧ (connector c).2.isSome = true) :
    ∃ s, (tracedConnectorConnect driverName connector ctx st).st.spans = s :: st.spans ∧
      s.name = driverName ++ ".query" ∧
      getAssoc s.tags "sql.query_type" = some "Connect" ∧
      s.finished = true ∧
      s.err = (connector ctx).2 ∧
      s.err.isSome = true ∧
      (tracedConnectorConnect driverName connector ctx st).err = (connector ctx).2 ∧
      (tracedConnectorConnect driverName connector ctx st).conn = none := by
  obtain ⟨hc1, hc2⟩ := hconn ctx hcancel
  simp [tracedConnectorConnect, tracer.StartSpanFromContext, finishSpan,
    updateFirstSpan_cons_self, applyStartOpts, applyStartOpt, setAssoc, getAssoc,
    hc1, hc2]

/-- Witness for C7: a cancelled context and a connector that returns the
cancellation error, as the repository's hanging-connector test does. -/
theorem connect_cancelled_ctx_span_witness :
    ∃ s, (tracedConnectorConnect "hangingConnector"
        (fun _ => ((none : Option Unit), some "context cancelled"))
        { cancelled := true } {}).st.spans = s :: ({} : TracerState).spans ∧
      s.name = "hangingConnector" ++ ".query" ∧
      getAssoc s.tags "sql.query_type" = some "Connect" ∧
      s.finished = true ∧
      s.err = ((fun (_ : Ctx) => ((none : Option Unit), some "context cancelled"))
        ({ cancelled := true } : Ctx)).2 ∧
      s.err.isSome = true ∧
      (tracedConnectorConnect "hangingConnector"
        (fun _ => ((none : Option Unit), some "context cancelled"))
        { cancelled := true } {}).err =
        ((fun (_ : Ctx) => ((none : Option Unit), some "context cancelled"))
          ({ cancelled := true } : Ctx)).2 ∧
      (tracedConnectorConnect "hangingConnector"
        (fun _ => ((none : Option Unit), some "context cancelled"))
        { cancelled := true } {}).conn = none :=
  connect_cancelled_ctx_span "hangingConnector"
    (fun _ => ((none : Option Unit), some "context cancelled")) { cancelled := true } {}
    rfl (fun _ _ => ⟨rfl, rfl⟩)

/-- C8: Errors of the wrapped operation — handler, invoker, or underlying
connector — are propagated to the caller unchanged by every adapter: the
returned error (and response/connection) is exactly the wrapped
operation's; the adapters never suppress, replace, or transform it. -/
theorem wrapped_errors_propagate_unchanged {Req Resp Conn : Type} :
    (∀ (opts : List InterceptorOption) (globalService : String) (ctx : Ctx) (req : Req)
      (info : UnaryServerInfo) (handler : Ctx → Req → Resp × Option String)
      (st : TracerState),
      (UnaryServerInterceptor opts globalService ctx req info handler st).err =
        (handler (UnaryServerInterceptor opts globalService ctx req info handler st).handlerCtx
          req).2 ∧
      (UnaryServerInterceptor opts globalService ctx req info handler st).resp =
        (handler (UnaryServerInterceptor opts globalService ctx req info handler st).handlerCtx
          req).1) ∧
    (∀ (opts : List InterceptorOption) (ctx : Ctx) (method : String)
      (invoker : Ctx → String → Option String × Option String) (st : TracerState),
      (UnaryClientInterceptor opts ctx method invoker st).err =
        (invoker (UnaryClientInterceptor opts ctx method invoker st).invokerCtx method).1) ∧
    (∀ (driverName : String) (connector : Ctx → Option Conn × Option String) (ctx : Ctx)
      (st : TracerState),
      (tracedConnectorConnect driverName connector ctx st).err = (connector ctx).2 ∧
      (tracedConnectorConnect driverName connector ctx st).conn = (connector ctx).1) := by
  refine ⟨?_, ?_, ?_⟩
  · intro opts globalService ctx req info handler st
    simp [UnaryServerInterceptor]
  · intro opts ctx method invoker st
    simp [UnaryClientInterceptor]
  · intro driverName connector ctx st
    simp [tracedConnectorConnect]

/-- C9: The trace context the client interceptor injects into the
metadata carrier is extracted intact by the server interceptor run on
that metadata: the server-side span's parent identifier equals the
client-side span's identifier (and the trace identifiers agree) —
`Extract` after `Inject` round-trips through the carrier. -/
theorem inject_extract_parent_link {Req Resp : Type} (optsC optsS : List InterceptorOption)
    (globalS : String) (ctx : Ctx) (method : String)
    (invoker : Ctx → String → Option String × Option String) (st stS : TracerState)
    (req : Req) (info : UnaryServerInfo) (handler : Ctx → Req → Resp × Option String) :
    ∃ cs ss,
      (UnaryClientInterceptor optsC ctx method invoker st).st.spans = cs :: st.spans ∧
      (UnaryServerInterceptor optsS globalS
          { activeSpan := none,
            md := (UnaryClientInterceptor optsC ctx method invoker st).invokerCtx.md,
            cancelled := false } req info handler stS).st.spans = ss :: stS.spans ∧
      ss.parentID = some cs.spanID ∧
      ss.traceID = cs.traceID := by
  simp only [UnaryClientInterceptor, UnaryServerInterceptor, startSpanFromContext,
    tracer.StartSpanFromContext, finishSpan, setSpanTag]
  rcases hpeer : (invoker _ method).2 with _ | addr
  · simp [hpeer, updateFirstSpan_cons_self, extract_inject, applyStartOpts, applyStartOpt]
  · rcases hsp : net.SplitHostPort addr with _ | hp
    · simp [hpeer, hsp, updateFirstSpan_cons_self, extract_inject, applyStartOpts,
        applyStartOpt]
    · by_cases hh : hp.1 ≠ "" <;>
        simp [hpeer, hsp, hh, updateFirstSpan_cons_self, extract_inject, applyStartOpts,
          applyStartOpt]

theorem goAppendOne_preserves (h : GoHeap) (s : GoSlice) (x : StartSpanOption) (r0 : Nat)
    (href : r0 ≠ s.ref) (hlt : r0 < h.next) :
    (goAppendOne h s x).1.mem r0 = h.mem r0 ∧
    r0 ≠ (goAppendOne h s x).2.ref ∧
    r0 < (goAppendOne h s x).1.next := by
  by_cases hc : s.len < s.cap
  · simp [goAppendOne, hc, href, hlt]
  · simp [goAppendOne, hc, goAlloc]
    refine ⟨by omega, by omega, by omega⟩

theorem goAppendList_preserves (xs : List StartSpanOption) : ∀ (h : GoHeap) (s : GoSlice)
    (r0 : Nat), r0 ≠ s.ref → r0 < h.next →
    (goAppendList h s xs).1.mem r0 = h.mem r0 ∧
    r0 ≠ (goAppendList h s xs).2.ref ∧
    r0 < (goAppendList h s xs).1.next := by
  induction xs with
  | nil =>
    intro h s r0 href hlt
    exact ⟨rfl, href, hlt⟩
  | cons x rest ih =>
    intro h s r0 href hlt
    have hstep : goAppendList h s (x :: rest) =
        goAppendList (goAppendOne h s x).1 (goAppendOne h s x).2 rest := by
      simp [goAppendList]
    obtain ⟨h1, h2, h3⟩ := goAppendOne_preserves h s x r0 href hlt
    obtain ⟨g1, g2, g3⟩ := ih (goAppendOne h s x).1 (goAppendOne h s x).2 r0 h2 h3
    rw [hstep]
    exact ⟨g1.trans h1, g2, g3⟩

/-- C10: `startSpanFromContext` never mutates the caller's options slice:
for any heap and any live slice (its backing reference already
allocated), running the function's slice code — make a fresh slice,
`copy` the options into it, append its own options — leaves the caller's
backing array, and hence the slice's observable elements, unchanged; a
caller may therefore reuse the same slice across invocations. -/
theorem startSpanFromContext_no_mutation (h : GoHeap) (opts : GoSlice)
    (method service : String) (md : MD) (hv : opts.ref < h.next) :
    (startSpanFromContextSliceCode h opts method service md).1.mem opts.ref =
      h.mem opts.ref ∧
    goRead (startSpanFromContextSliceCode h opts method service md).1 opts =
      goRead h opts := by
  have key : (startSpanFromContextSliceCode h opts method service md).1.mem opts.ref =
      h.mem opts.ref := by
    unfold startSpanFromContextSliceCode
    have hmk : (goMake h opts.len (opts.len + 6)).2.ref = h.next := by
      simp [goMake, goAlloc]
    have hmknext : (goMake h opts.len (opts.len + 6)).1.next = h.next + 1 := by
      simp [goMake, goAlloc]
    have hmkmem : (goMake h opts.len (opts.len + 6)).1.mem opts.ref = h.mem opts.ref := by
      simp [goMake, goAlloc]
      omega
    have hcpmem : (goCopy (goMake h opts.len (opts.len + 6)).1
        (goMake h opts.len (opts.len + 6)).2 opts).mem opts.ref = h.mem opts.ref := by
      simp [goCopy, hmk]
      rw [if_neg (by omega)]
      exact hmkmem
    have hcpnext : (goCopy (goMake h opts.len (opts.len + 6)).1
        (goMake h opts.len (opts.len + 6)).2 opts).next = h.next + 1 := by
      simp [goCopy, hmknext]
    obtain ⟨a1, a2, a3⟩ := goAppendList_preserves
      [.serviceName service, .resourceName method, .tag tagMethod method,
       .spanType ext.AppTypeRPC, .measured,
       .tag ext.Component "google.golang.org/grpc.v12",
       .tag ext.SpanKind ext.SpanKindServer]
      (goCopy (goMake h opts.len (opts.len + 6)).1 (goMake h opts.len (opts.len + 6)).2 opts)
      (goMake h opts.len (opts.len + 6)).2 opts.ref (by rw [hmk]; omega)
      (by rw [hcpnext]; omega)
    rcases hE : tracer.Extract md with _ | sctx
    · simp only [hE]
      rw [a1, hcpmem]
    · simp only [hE]
      obtain ⟨b1, _, _⟩ := goAppendOne_preserves _ _ (.childOf sctx) opts.ref a2 a3
      rw [b1, a1, hcpmem]
  exact ⟨key, by simp [goRead, key]⟩

/-- Witness for C10: a two-element caller slice on a concrete heap. -/
theorem startSpanFromContext_no_mutation_witness :
    (startSpanFromContextSliceCode
        ⟨1, fun r => if r = 0 then [.measured, .measured] else []⟩
        ⟨0, 0, 2, 2⟩ "/svc.M" "grpc.server" []).1.mem (GoSlice.ref ⟨0, 0, 2, 2⟩) =
      GoHeap.mem ⟨1, fun r => if r = 0 then [.measured, .measured] else []⟩
        (GoSlice.ref ⟨0, 0, 2, 2⟩) ∧
    goRead (startSpanFromContextSliceCode
        ⟨1, fun r => if r = 0 then [.measured, .measured] else []⟩
        ⟨0, 0, 2, 2⟩ "/svc.M" "grpc.server" []).1 ⟨0, 0, 2, 2⟩ =
      goRead ⟨1, fun r => if r = 0 then [.measured, .measured] else []⟩ ⟨0, 0, 2, 2⟩ :=
  startSpanFromContext_no_mutation
    ⟨1, fun r => if r = 0 then [.measured, .measured] else []⟩
    ⟨0, 0, 2, 2⟩ "/svc.M" "grpc.server" [] (by decide)
